import Mathlib

/-!
Shallow embedding of the training-log application (`src/src/App.tsx`).

The app is a React single-page component.  Its core logic — menu/record
normalization, validation, sorting, import/export, and mirroring to
`localStorage` — is embedded here as pure Lean functions and a step
function on an explicit application-state record.

Modelling conventions:
* JavaScript numbers are modelled by `JsNum`: `NaN`, the two infinities,
  and finite values as exact rationals.  The claims under study only use
  sign tests, finiteness tests and order comparisons, which agree between
  IEEE doubles and exact rationals on the decimal inputs involved.
* JSON text is modelled by its parse tree `JVal`; `JSON.parse` of a raw
  string is modelled as an `Option JVal` (`none` = the string is missing,
  empty, or fails to parse).  `JSON.stringify ∘ JSON.parse` is the
  identity on the values this app writes, so storage cells hold
  `Option JVal` directly.
* `crypto.randomUUID()` is modelled as an id supply (`String`, or
  `ℕ → String` indexed by list position), `Date.now()` as a rational
  parameter.
* `String.localeCompare` on ISO `YYYY-MM-DD` dates is modelled as the
  code-point lexicographic order `<` on `String` (they agree on such
  strings), and `String.prototype.trim` as `jsTrim` (whitespace
  stripping from both ends, with `Char.isWhitespace` as the model of the
  trimmed character class).
-/

namespace Training

/-- A JavaScript number: `NaN`, `±Infinity`, or a finite value
(modelled as an exact rational). -/
inductive JsNum where
  | nan
  | posInf
  | negInf
  | fin (q : ℚ)
  deriving DecidableEq, Repr

/-- `Number.isNaN`. -/
def JsNum.isNaN : JsNum → Bool
  | .nan => true
  | _ => false

/-- `Number.isFinite`. -/
def JsNum.isFinite : JsNum → Bool
  | .fin _ => true
  | _ => false

/-- The JavaScript comparison `x <= 0` (false when `x` is `NaN`). -/
def JsNum.leZero : JsNum → Bool
  | .nan => false
  | .posInf => false
  | .negInf => true
  | .fin q => decide (q ≤ 0)

/-- The JavaScript comparison `x > 0` (false when `x` is `NaN`). -/
def JsNum.gtZero : JsNum → Bool
  | .nan => false
  | .posInf => true
  | .negInf => false
  | .fin q => decide (0 < q)

/-- `String.prototype.trim`: strip whitespace from both ends. -/
def jsTrim (s : String) : String :=
  ⟨((s.data.dropWhile Char.isWhitespace).reverse.dropWhile Char.isWhitespace).reverse⟩

/-- Value of a decimal digit character. -/
def decDigit? (c : Char) : Option ℕ :=
  if c.isDigit then some (c.toNat - '0'.toNat) else none

/-- Value of a hexadecimal digit character. -/
def hexDigit? (c : Char) : Option ℕ :=
  if c.isDigit then some (c.toNat - '0'.toNat)
  else if 'a' ≤ c ∧ c ≤ 'f' then some (c.toNat - 'a'.toNat + 10)
  else if 'A' ≤ c ∧ c ≤ 'F' then some (c.toNat - 'A'.toNat + 10)
  else none

/-- Value of an octal digit character. -/
def octDigit? (c : Char) : Option ℕ :=
  if '0' ≤ c ∧ c ≤ '7' then some (c.toNat - '0'.toNat) else none

/-- Value of a binary digit character. -/
def binDigit? (c : Char) : Option ℕ :=
  if c = '0' then some 0 else if c = '1' then some 1 else none

/-- Value of a possibly-empty digit string (`none` on a non-digit). -/
def digitsVal0 (dig : Char → Option ℕ) (radix : ℕ) (cs : List Char) : Option ℕ :=
  cs.foldlM (fun acc c => (dig c).map (fun d => acc * radix + d)) 0

/-- Value of a non-empty digit string (`none` if empty or a non-digit occurs). -/
def digitsVal (dig : Char → Option ℕ) (radix : ℕ) (cs : List Char) : Option ℕ :=
  if cs = [] then none else digitsVal0 dig radix cs

/-- Value of an ECMAScript decimal mantissa: `D+`, `D+.D*` or `.D+`. -/
def mantissaVal (cs : List Char) : Option ℚ :=
  match cs.span (fun c => c ≠ '.') with
  | (intPart, []) => (digitsVal decDigit? 10 intPart).map (fun n => (n : ℚ))
  | (intPart, _dot :: frac) =>
    if intPart = [] ∧ frac = [] then none
    else
      match digitsVal0 decDigit? 10 intPart, digitsVal0 decDigit? 10 frac with
      | some i, some f => some ((i : ℚ) + (f : ℚ) / ((10 : ℚ) ^ frac.length))
      | _, _ => none

/-- Value of an ECMAScript exponent part (after the `e`/`E`). -/
def expVal (cs : List Char) : Option ℤ :=
  match cs with
  | '+' :: rest => (digitsVal decDigit? 10 rest).map (fun n => (n : ℤ))
  | '-' :: rest => (digitsVal decDigit? 10 rest).map (fun n => -(n : ℤ))
  | rest => (digitsVal decDigit? 10 rest).map (fun n => (n : ℤ))

/-- Multiply by a signed power of ten. -/
def applyExp (q : ℚ) (e : ℤ) : ℚ :=
  if 0 ≤ e then q * (10 : ℚ) ^ e.toNat else q / (10 : ℚ) ^ (-e).toNat

/-- Value of an ECMAScript unsigned decimal literal (mantissa with an
optional exponent part). -/
def unsignedDecVal (cs : List Char) : Option ℚ :=
  match cs.span (fun c => c ≠ 'e' ∧ c ≠ 'E') with
  | (mant, []) => mantissaVal mant
  | (mant, _e :: ex) =>
    match mantissaVal mant, expVal ex with
    | some m, some e => some (applyExp m e)
    | _, _ => none

/-- Value of an ECMAScript `StrDecimalLiteral` with the sign already
stripped: `Infinity` or an unsigned decimal literal. -/
def signedDecVal (neg : Bool) (cs : List Char) : Option JsNum :=
  if cs = "Infinity".data then some (if neg then .negInf else .posInf)
  else (unsignedDecVal cs).map (fun q => .fin (if neg then -q else q))

/-- Value of an ECMAScript `StrNumericLiteral` (already trimmed and
non-empty): a radix-prefixed integer, or a signed decimal/`Infinity`. -/
def strNumericVal (cs : List Char) : Option JsNum :=
  match cs with
  | '0' :: 'x' :: rest => (digitsVal hexDigit? 16 rest).map (fun n => .fin (n : ℚ))
  | '0' :: 'X' :: rest => (digitsVal hexDigit? 16 rest).map (fun n => .fin (n : ℚ))
  | '0' :: 'o' :: rest => (digitsVal octDigit? 8 rest).map (fun n => .fin (n : ℚ))
  | '0' :: 'O' :: rest => (digitsVal octDigit? 8 rest).map (fun n => .fin (n : ℚ))
  | '0' :: 'b' :: rest => (digitsVal binDigit? 2 rest).map (fun n => .fin (n : ℚ))
  | '0' :: 'B' :: rest => (digitsVal binDigit? 2 rest).map (fun n => .fin (n : ℚ))
  | '+' :: rest => signedDecVal false rest
  | '-' :: rest => signedDecVal true rest
  | rest => signedDecVal false rest

/-- The ECMAScript `Number(string)` coercion (`StringToNumber`): the
whole trimmed string must be a numeric literal, the empty string is `0`,
anything else is `NaN`. -/
def jsToNumber (s : String) : JsNum :=
  let t := jsTrim s
  if t = "" then .fin 0
  else (strNumericVal t.data).getD .nan

/-- A JSON value (the result of a successful `JSON.parse`).  JSON numbers
are always finite, hence a plain rational. -/
inductive JVal where
  | null
  | bool (b : Bool)
  | num (q : ℚ)
  | str (s : String)
  | arr (elems : List JVal)
  | obj (fields : List (String × JVal))
  deriving Repr

/-- Property access `v[key]` (`none` = `undefined`): last binding wins,
as in objects built by `JSON.parse`; non-objects have none of the keys
this app reads. -/
def JVal.getField : JVal → String → Option JVal
  | .obj fields, k => fields.foldl (fun acc kv => if kv.1 = k then some kv.2 else acc) none
  | _, _ => none

/-- The JavaScript test `typeof v === "object"` (true for `null`,
arrays and objects). -/
def JVal.typeofObject : JVal → Bool
  | .null => true
  | .arr _ => true
  | .obj _ => true
  | _ => false

/-- JavaScript truthiness of a JSON value. -/
def JVal.truthy : JVal → Bool
  | .null => false
  | .bool b => b
  | .num q => decide (q ≠ 0)
  | .str s => decide (s ≠ "")
  | .arr _ => true
  | .obj _ => true

/-- `typeof v === "string"` as a partial projection. -/
def JVal.asString : JVal → Option String
  | .str s => some s
  | _ => none

/-- The element-wise test `r && typeof r === "object"` used when
filtering raw record entries (true for arrays and objects; `null` is
object-typed but falsy). -/
def JVal.isObjectLike : JVal → Bool
  | .obj _ => true
  | .arr _ => true
  | _ => false

/-- The ECMAScript `Number(v)` coercion on a JSON value.  An array
coerces through `Array.prototype.join(",")`: a multi-element array always
contains a comma and is `NaN`; an empty array is `""` hence `0`; a
singleton coerces as its element (booleans and objects stringify to
non-numeric text, hence `NaN`). -/
def JVal.toNum : JVal → JsNum
  | .null => .fin 0
  | .bool b => .fin (if b then 1 else 0)
  | .num q => .fin q
  | .str s => jsToNumber s
  | .obj _ => .nan
  | .arr [] => .fin 0
  | .arr [.bool _] => .nan
  | .arr [.obj _] => .nan
  | .arr [v] => v.toNum
  | .arr (_ :: _ :: _) => .nan

/-- `Number(x)` where `x` may be `undefined` (a missing field). -/
def optToNum : Option JVal → JsNum
  | none => .nan
  | some v => v.toNum

/-- `DEFAULT_MENUS`. -/
def DEFAULT_MENUS : List String := ["ベンチプレス", "スクワット", "デッドリフト"]

/-- `RecordItem`.  `weight` and `reps` are whatever `Number(...)` produced
(`handleAddRecord` stores the coercion result unchecked for finiteness);
`createdAt` comes from `Date.now()` and is always finite. -/
structure RecordItem where
  id : String
  date : String
  menu : String
  weight : JsNum
  reps : JsNum
  createdAt : ℚ
  deriving DecidableEq, Repr

/-- The comparator of `sortRecords` as a boolean "less-or-equal":
`recLE a b` holds exactly when the source comparator returns `≤ 0` on
`(a, b)`, i.e. when `a` may be placed before `b`. -/
def recLE (a b : RecordItem) : Bool :=
  if a.date = b.date then decide (b.createdAt ≤ a.createdAt)
  else decide (b.date < a.date)

/-- `sortRecords`: `[...records].sort(comparator)` — a stable sort by the
comparator, leaving the input list untouched. -/
def sortRecords (records : List RecordItem) : List RecordItem :=
  records.mergeSort recLE

/-- `readMenus`.  `raw = none` models a missing/empty stored string or a
JSON parse failure (`safeParseJSON` returning `null`). -/
def readMenus (raw : Option JVal) : List String :=
  match raw with
  | none => DEFAULT_MENUS
  | some (.arr elems) =>
    let cleaned := ((elems.filterMap JVal.asString).map jsTrim).filter
      (fun m => m ≠ "")
    if cleaned.length > 0 then cleaned else DEFAULT_MENUS
  | some _ => DEFAULT_MENUS

/-- The field-by-field repair applied to one raw record entry, shared by
`readRecords` and `normalizeImport`.  `menuDefault` is `""` on load and
`finalMenus[0] ?? ""` on import; `freshId` models `createId()`, `now`
models `Date.now()`. -/
def repairRecord (menuDefault : String) (now : ℚ) (freshId : String) (r : JVal) :
    RecordItem :=
  { id := match r.getField "id" with | some (.str s) => s | _ => freshId
    date := match r.getField "date" with | some (.str s) => s | _ => ""
    menu := match r.getField "menu" with | some (.str s) => s | _ => menuDefault
    weight :=
      if (optToNum (r.getField "weight")).isFinite then optToNum (r.getField "weight")
      else .fin 0
    reps :=
      if (optToNum (r.getField "reps")).isFinite then optToNum (r.getField "reps")
      else .fin 0
    createdAt := match r.getField "createdAt" with | some (.num q) => q | _ => now }

/-- The survival filter `r.date && r.menu && r.weight > 0 && r.reps > 0`
applied after repair (string truthiness = non-emptiness). -/
def recordKeep (r : RecordItem) : Bool :=
  decide (r.date ≠ "") && decide (r.menu ≠ "") && r.weight.gtZero && r.reps.gtZero

/-- `.map(...)` over the raw entries with a position-indexed id supply
modelling the per-element `createId()` calls. -/
def repairList (menuDefault : String) (freshId : ℕ → String) (now : ℚ) :
    ℕ → List JVal → List RecordItem
  | _, [] => []
  | i, r :: rest =>
    repairRecord menuDefault now (freshId i) r ::
      repairList menuDefault freshId now (i + 1) rest

/-- `readRecords`.  `raw = none` models a missing/empty stored string or a
parse failure. -/
def readRecords (raw : Option JVal) (freshId : ℕ → String) (now : ℚ) :
    List RecordItem :=
  match raw with
  | none => []
  | some (.arr elems) =>
    (repairList "" freshId now 0 (elems.filter JVal.isObjectLike)).filter recordKeep
  | some _ => []

/-- The `data.menus` half of `normalizeImport` (`finalMenus`). -/
def importMenus (data : JVal) : List String :=
  let menusRaw := match data.getField "menus" with | some (.arr xs) => xs | _ => []
  let nextMenus := ((menusRaw.filterMap JVal.asString).map jsTrim).filter
    (fun m => m ≠ "")
  if nextMenus.length > 0 then nextMenus else DEFAULT_MENUS

/-- The raw `data.records` array of `normalizeImport`
(`Array.isArray(data.records) ? data.records : []`). -/
def recordsRaw (data : JVal) : List JVal :=
  match data.getField "records" with | some (.arr xs) => xs | _ => []

/-- The `data.records` half of `normalizeImport` (`nextRecords`): the same
repair as `readRecords` except that a non-string `menu` field defaults to
`finalMenus[0] ?? ""`. -/
def importRecords (data : JVal) (freshId : ℕ → String) (now : ℚ) :
    List RecordItem :=
  (repairList ((importMenus data).headD "") freshId now 0
      ((recordsRaw data).filter JVal.isObjectLike)).filter recordKeep

/-- `normalizeImport`. -/
def normalizeImport (data : JVal) (freshId : ℕ → String) (now : ℚ) :
    List String × List RecordItem :=
  (importMenus data, importRecords data freshId now)

/-- `JSON.stringify` of the menu list, as a parse tree. -/
def encodeMenus (menus : List String) : JVal := .arr (menus.map JVal.str)

/-- `JSON.stringify` of one number: non-finite numbers serialize to
`null`. -/
def encodeNum : JsNum → JVal
  | .fin q => .num q
  | _ => .null

/-- `JSON.stringify` of one record, as a parse tree. -/
def encodeRecord (r : RecordItem) : JVal :=
  .obj [("id", .str r.id), ("date", .str r.date), ("menu", .str r.menu),
        ("weight", encodeNum r.weight), ("reps", encodeNum r.reps),
        ("createdAt", .num r.createdAt)]

/-- `JSON.stringify` of the record list, as a parse tree. -/
def encodeRecords (records : List RecordItem) : JVal :=
  .arr (records.map encodeRecord)

/-- `handleExport`: the serialized `{ menus, records }` payload. -/
def exportData (menus : List String) (records : List RecordItem) : JVal :=
  .obj [("menus", encodeMenus menus), ("records", encodeRecords records)]

/-- The component state of `App`, with the two `localStorage` cells made
explicit.  A stored cell holds the parse tree of the written JSON text
(`none` = never written in the scope of the analysis). -/
structure AppState where
  menus : List String
  menu : String
  records : List RecordItem
  menuInput : String
  date : String
  weight : String
  reps : String
  errors : List String
  importError : Option String
  storedMenus : Option JVal
  storedRecords : Option JVal

/-- Validation error message for the date field. -/
def dateRequiredMsg : String := "日付は必須です。"

/-- Validation error message for the menu field. -/
def menuRequiredMsg : String := "メニューを選択してください。"

/-- Validation error message for the weight field. -/
def weightPositiveMsg : String := "重量は0より大きい数を入力してください。"

/-- Validation error message for the reps field. -/
def repsPositiveMsg : String := "回数は0より大きい数を入力してください。"

/-- Menu-add error message for an empty name. -/
def menuEmptyMsg : String := "メニュー名を入力してください。"

/-- Menu-add error message for a duplicate name. -/
def menuDupMsg : String := "同じメニューが既に登録されています。"

/-- Import error message for a bad JSON shape. -/
def importShapeErrMsg : String := "不正なJSON形式です。"

/-- Import error message for a read/parse failure. -/
def importReadErrMsg : String := "JSONの読み込みに失敗しました。"

/-- `validateRecord`, as the sequence of pushes onto `nextErrors`. -/
def validateRecord (s : AppState) : List String :=
  let e0 : List String := []
  let e1 := if s.date = "" then e0.concat dateRequiredMsg else e0
  let e2 := if s.menu = "" then e1.concat menuRequiredMsg else e1
  let weightValue := jsToNumber s.weight
  let e3 :=
    if s.weight = "" ∨ weightValue.isNaN ∨ weightValue.leZero then
      e2.concat weightPositiveMsg
    else e2
  let repsValue := jsToNumber s.reps
  let e4 :=
    if s.reps = "" ∨ repsValue.isNaN ∨ repsValue.leZero then
      e3.concat repsPositiveMsg
    else e3
  e4

/-- The menus-persistence `useEffect`: persist the list when non-empty,
and reset the active selection to the first menu when it is no longer in
the list. -/
def runMenusEffect (s : AppState) : AppState :=
  let s1 :=
    if s.menus.length > 0 then { s with storedMenus := some (encodeMenus s.menus) }
    else s
  if s.menus.length > 0 ∧ ¬ s.menu ∈ s.menus then { s1 with menu := s.menus.headD "" }
  else s1

/-- The records-persistence `useEffect`: always mirror the list. -/
def runRecordsEffect (s : AppState) : AppState :=
  { s with storedRecords := some (encodeRecords s.records) }

/-- `handleAddMenu`. -/
def handleAddMenu (s : AppState) : AppState :=
  let trimmed := jsTrim s.menuInput
  if trimmed = "" then { s with errors := [menuEmptyMsg] }
  else if trimmed ∈ s.menus then { s with errors := [menuDupMsg] }
  else
    runMenusEffect
      { s with menus := s.menus ++ [trimmed], menu := trimmed, menuInput := "",
               errors := [] }

/-- `handleDeleteMenu`. -/
def handleDeleteMenu (s : AppState) (target : String) : AppState :=
  let nextMenus := s.menus.filter (fun item => item ≠ target)
  let finalMenus := if nextMenus.length > 0 then nextMenus else DEFAULT_MENUS
  let s1 := { s with menus := finalMenus }
  let s2 :=
    if ¬ s1.menu ∈ finalMenus then { s1 with menu := finalMenus.headD "" } else s1
  runMenusEffect s2

/-- `handleAddRecord` (after `event.preventDefault()`); `freshId` models
`createId()` and `now` models `Date.now()`. -/
def handleAddRecord (s : AppState) (freshId : String) (now : ℚ) : AppState :=
  let nextErrors := validateRecord s
  if nextErrors ≠ [] then { s with errors := nextErrors }
  else
    let newRecord : RecordItem :=
      { id := freshId, date := s.date, menu := s.menu,
        weight := jsToNumber s.weight, reps := jsToNumber s.reps, createdAt := now }
    runRecordsEffect
      { s with records := newRecord :: s.records, weight := "", reps := "",
               errors := [] }

/-- `handleDeleteRecord`. -/
def handleDeleteRecord (s : AppState) (id : String) : AppState :=
  runRecordsEffect { s with records := s.records.filter (fun item => item.id ≠ id) }

/-- `handleImport`, from the point where the file read completes:
`parsed = none` models a read failure or a `JSON.parse` exception
(the `catch` branch), `some v` a successful parse. -/
def handleImport (s : AppState) (parsed : Option JVal) (freshId : ℕ → String)
    (now : ℚ) : AppState :=
  match parsed with
  | none => { s with importError := some importReadErrMsg }
  | some v =>
    if ¬ v.truthy ∨ ¬ v.typeofObject then
      { s with importError := some importShapeErrMsg }
    else
      let finalMenus := (normalizeImport v freshId now).1
      let nextRecords := (normalizeImport v freshId now).2
      runRecordsEffect (runMenusEffect
        { s with menus := finalMenus, menu := finalMenus.headD "",
                 records := nextRecords, importError := none, errors := [] })

/-- The discrete user/runtime events driving the component. -/
inductive Event where
  | setMenuInput (v : String)
  | setDate (v : String)
  | setMenuSel (v : String)
  | setWeight (v : String)
  | setReps (v : String)
  | addMenu
  | deleteMenu (target : String)
  | addRecord (freshId : String) (now : ℚ)
  | deleteRecord (id : String)
  | importFile (parsed : Option JVal) (freshId : ℕ → String) (now : ℚ)

/-- One synchronous event-handling step, effects included. -/
def step (s : AppState) : Event → AppState
  | .setMenuInput v => { s with menuInput := v }
  | .setDate v => { s with date := v }
  | .setMenuSel v => { s with menu := v }
  | .setWeight v => { s with weight := v }
  | .setReps v => { s with reps := v }
  | .addMenu => handleAddMenu s
  | .deleteMenu t => handleDeleteMenu s t
  | .addRecord i n => handleAddRecord s i n
  | .deleteRecord i => handleDeleteRecord s i
  | .importFile p g n => handleImport s p g n

/-- The record invariant enforced by the load/import survival filter,
stated of an in-memory record: non-empty date and menu, finite positive
weight and reps. -/
def validRecordItem (r : RecordItem) : Prop :=
  r.date ≠ "" ∧ r.menu ≠ "" ∧
  r.weight.isFinite = true ∧ r.weight.gtZero = true ∧
  r.reps.isFinite = true ∧ r.reps.gtZero = true

instance (r : RecordItem) : Decidable (validRecordItem r) := by
  unfold validRecordItem
  infer_instance

/-- `typeof r.menu === "string"`, the guard deciding whether the
`menu` field is kept or replaced by the default during repair. -/
def menuFieldIsString (r : JVal) : Bool :=
  match r.getField "menu" with
  | some (.str _) => true
  | _ => false

/-- A fully-specified concrete state used to instantiate theorems:
default menus, first menu selected, no records, empty form. -/
def baseState : AppState :=
  ⟨DEFAULT_MENUS, "ベンチプレス", [], "", "2024-01-10", "", "", [], none, none, none⟩

/-- A form submission whose weight field parses to `Infinity`. -/
def infWeightState : AppState := { baseState with weight := "Infinity", reps := "5" }

/-- A form submission with weight and reps both `"0"`. -/
def zeroWRState : AppState := { baseState with weight := "0", reps := "0" }

/-- A state whose single menu is also the active selection, and happens
to be a member of the default set. -/
def soleMenuState : AppState :=
  { baseState with menus := ["スクワット"], menu := "スクワット" }

/-- A valid concrete record. -/
def sampleRecord : RecordItem :=
  ⟨"a", "2024-01-10", "ベンチプレス", .fin 60, .fin 8, 3⟩

/-- A second valid concrete record, same date, created later. -/
def sampleRecordB : RecordItem :=
  ⟨"b", "2024-01-10", "スクワット", .fin 40, .fin 10, 5⟩

/-- A state holding exactly one record, with storage in sync. -/
def oneRecState : AppState :=
  { baseState with records := [sampleRecord],
                   storedRecords := some (encodeRecords [sampleRecord]) }

/-- A constant id supply for concrete instances. -/
def constGen : ℕ → String := fun _ => "gen"

/-- A raw imported record entry with no `menu` field. -/
def noMenuRecord : JVal := .obj [("date", .str "2024-01-01")]

/-- A raw imported record entry whose `menu` field is the empty string. -/
def emptyMenuRecord : JVal := .obj [("menu", .str "")]

/-! ### Helper lemmas -/

theorem runRecordsEffect_menus (s : AppState) : (runRecordsEffect s).menus = s.menus := rfl

theorem runRecordsEffect_records (s : AppState) :
    (runRecordsEffect s).records = s.records := rfl

theorem runRecordsEffect_storedMenus (s : AppState) :
    (runRecordsEffect s).storedMenus = s.storedMenus := rfl

theorem runRecordsEffect_storedRecords (s : AppState) :
    (runRecordsEffect s).storedRecords = some (encodeRecords s.records) := rfl

theorem runMenusEffect_menus (s : AppState) : (runMenusEffect s).menus = s.menus := by
  simp only [runMenusEffect]
  split_ifs <;> rfl

theorem runMenusEffect_records (s : AppState) :
    (runMenusEffect s).records = s.records := by
  simp only [runMenusEffect]
  split_ifs <;> rfl

theorem runMenusEffect_storedRecords (s : AppState) :
    (runMenusEffect s).storedRecords = s.storedRecords := by
  simp only [runMenusEffect]
  split_ifs <;> rfl

theorem runMenusEffect_storedMenus_pos (s : AppState) (h : s.menus ≠ []) :
    (runMenusEffect s).storedMenus = some (encodeMenus s.menus) := by
  have hl : s.menus.length > 0 := List.length_pos.mpr h
  simp only [runMenusEffect, if_pos hl]
  split_ifs <;> rfl

/-- `validateRecord` collects the four independent checks in order. -/
theorem validateRecord_eq (s : AppState) :
    validateRecord s =
      (if s.date = "" then [dateRequiredMsg] else []) ++
      (if s.menu = "" then [menuRequiredMsg] else []) ++
      (if s.weight = "" ∨ (jsToNumber s.weight).isNaN ∨ (jsToNumber s.weight).leZero
        then [weightPositiveMsg] else []) ++
      (if s.reps = "" ∨ (jsToNumber s.reps).isNaN ∨ (jsToNumber s.reps).leZero
        then [repsPositiveMsg] else []) := by
  simp only [validateRecord]
  split_ifs <;> simp [List.concat_eq_append]

/-! ### Claim C8 -/

/-- Claim C8: the four `add` validation checks (non-empty date, non-empty
menu, weight, reps) run independently, and every resulting failure
message is collected into the reported list in order rather than
short-circuiting on the first failure; in particular weight `"0"` and
reps `"0"` together produce exactly the two corresponding messages. -/
theorem c8_checks_independent :
    (∀ s : AppState,
      validateRecord s =
        (if s.date = "" then [dateRequiredMsg] else []) ++
        (if s.menu = "" then [menuRequiredMsg] else []) ++
        (if s.weight = "" ∨ (jsToNumber s.weight).isNaN ∨ (jsToNumber s.weight).leZero
          then [weightPositiveMsg] else []) ++
        (if s.reps = "" ∨ (jsToNumber s.reps).isNaN ∨ (jsToNumber s.reps).leZero
          then [repsPositiveMsg] else [])) ∧
    validateRecord zeroWRState = [weightPositiveMsg, repsPositiveMsg] ∧
    (validateRecord zeroWRState).length = 2 :=
  ⟨validateRecord_eq, by decide, by decide⟩

/-! ### Claim C1 -/

/-- Claim C1 as stated is false on the code: the weight field of
`infWeightState` parses to the non-finite value `Infinity`, yet
validation succeeds (no error message) and the submission appends a
record, changing the record collection. -/
theorem c1_counterexample :
    (jsToNumber infWeightState.weight).isFinite = false ∧
    validateRecord infWeightState = [] ∧
    (step infWeightState (.addRecord "id1" 5)).records ≠ infWeightState.records := by
  refine ⟨by decide, by decide, by decide⟩

/-- Claim C1, amended: validation checks the parsed weight and reps with
`Number.isNaN` and `<= 0`, not `Number.isFinite`; for every submission in
which either field is empty, parses to `NaN`, or parses to a value less
than or equal to zero, validation fails and the record collection is
unchanged (`+Infinity`, being `> 0` and not `NaN`, is accepted). -/
theorem c1_validation_rejects (s : AppState) (freshId : String) (now : ℚ)
    (h : (s.weight = "" ∨ (jsToNumber s.weight).isNaN = true ∨
          (jsToNumber s.weight).leZero = true) ∨
         (s.reps = "" ∨ (jsToNumber s.reps).isNaN = true ∨
          (jsToNumber s.reps).leZero = true)) :
    validateRecord s ≠ [] ∧ (step s (.addRecord freshId now)).records = s.records := by
  have hne : validateRecord s ≠ [] := by
    rw [validateRecord_eq]
    rcases h with h | h
    · rw [if_pos h]
      simp
    · rw [if_pos h]
      simp
  refine ⟨hne, ?_⟩
  simp only [step, handleAddRecord]
  rw [if_pos hne]

/-- Witness for `c1_validation_rejects` at the concrete submission with
weight `"0"`. -/
theorem c1_validation_rejects_witness :
    validateRecord zeroWRState ≠ [] ∧
    (step zeroWRState (.addRecord "id2" 7)).records = zeroWRState.records :=
  c1_validation_rejects zeroWRState "id2" 7 (Or.inl (Or.inr (Or.inr (by decide))))

/-! ### Claim C2 -/

/-- On a successful import the handler replaces both stores with the
normalized payload. -/
theorem handleImport_success (s : AppState) (v : JVal) (g : ℕ → String) (now : ℚ)
    (h1 : v.truthy = true) (h2 : v.typeofObject = true) :
    (handleImport s (some v) g now).menus = (normalizeImport v g now).1 ∧
    (handleImport s (some v) g now).records = (normalizeImport v g now).2 := by
  simp only [handleImport]
  rw [if_neg (by simp [h1, h2])]
  constructor
  · rw [runRecordsEffect_menus, runMenusEffect_menus]
  · rw [runRecordsEffect_records, runMenusEffect_records]

/-- Claim C2: if the JSON parse fails, or the parsed top-level value is
not an object (null, or of a non-object `typeof`), the import reports an
error and leaves the whole state — in particular both the menu and the
record collections — unchanged; on success the whole normalized payload
replaces both stores. -/
theorem c2_import_atomic (s : AppState) (g : ℕ → String) (now : ℚ) :
    step s (.importFile none g now) = { s with importError := some importReadErrMsg } ∧
    (∀ v : JVal, v.truthy = false ∨ v.typeofObject = false →
      step s (.importFile (some v) g now) =
        { s with importError := some importShapeErrMsg }) ∧
    (∀ v : JVal, v.truthy = true → v.typeofObject = true →
      (step s (.importFile (some v) g now)).menus = (normalizeImport v g now).1 ∧
      (step s (.importFile (some v) g now)).records = (normalizeImport v g now).2) := by
  refine ⟨rfl, ?_, ?_⟩
  · intro v hv
    simp only [step, handleImport]
    have hc : ¬ v.truthy = true ∨ ¬ v.typeofObject = true := by
      rcases hv with hv | hv
      · exact Or.inl (by simp [hv])
      · exact Or.inr (by simp [hv])
    rw [if_pos hc]
  · intro v h1 h2
    exact handleImport_success s v g now h1 h2

/-- Witness for `c2_import_atomic`: a top-level number is rejected with
the shape error and the state is unchanged; a top-level object is
imported, replacing the menu store with the normalized menus. -/
theorem c2_import_atomic_witness :
    step baseState (.importFile (some (JVal.num 5)) constGen 0) =
      { baseState with importError := some importShapeErrMsg } ∧
    (step baseState (.importFile (some (JVal.obj [])) constGen 0)).menus =
      (normalizeImport (JVal.obj []) constGen 0).1 :=
  ⟨(c2_import_atomic baseState constGen 0).2.1 (JVal.num 5) (Or.inr rfl),
   ((c2_import_atomic baseState constGen 0).2.2 (JVal.obj []) rfl rfl).1⟩

/-! ### Claim C6 -/

theorem headD_mem_of_ne_nil {α : Type} (l : List α) (d : α) (h : l ≠ []) :
    l.headD d ∈ l := by
  cases l with
  | nil => exact absurd rfl h
  | cons a t => simp [List.headD]

/-- The menus effect does not reset a selection that is still in the
list. -/
theorem runMenusEffect_menu_mem (s : AppState) (h : s.menu ∈ s.menus) :
    (runMenusEffect s).menu = s.menu := by
  simp only [runMenusEffect]
  split_ifs with h1 h2 h3
  · exact absurd h h1.2
  · exact absurd h h1.2
  · rfl
  · rfl

/-- Claim C6 as stated is false on the code: deleting the sole menu
`"スクワット"`, which is also the active selection, replaces the
collection with the default set, but the active selection is *not* reset
to the first element of the resulting collection — the deleted name
reappears inside the default set, so the selection stays `"スクワット"`
while the first element is `"ベンチプレス"`. -/
theorem c6_counterexample :
    (step soleMenuState (.deleteMenu "スクワット")).menus = DEFAULT_MENUS ∧
    (step soleMenuState (.deleteMenu "スクワット")).menu = "スクワット" ∧
    "スクワット" ≠ DEFAULT_MENUS.headD "" := by
  refine ⟨by decide, by decide, by decide⟩

/-- Claim C6, amended: if removing the entry leaves the collection empty
it is replaced by the built-in default set, so the collection is never
empty afterward; the active selection is reset to the first element of
the resulting collection (empty string if none) exactly when it is no
longer contained in that collection — which can fail to happen for the
removed entry itself when the default fallback re-introduces it. -/
theorem c6_delete_menu (s : AppState) (target : String) :
    ((step s (.deleteMenu target)).menus =
      if (s.menus.filter (fun m => m ≠ target)).length > 0
      then s.menus.filter (fun m => m ≠ target) else DEFAULT_MENUS) ∧
    (step s (.deleteMenu target)).menus ≠ [] ∧
    ((step s (.deleteMenu target)).menu =
      if s.menu ∈ (step s (.deleteMenu target)).menus then s.menu
      else (step s (.deleteMenu target)).menus.headD "") := by
  have hne : (if (s.menus.filter (fun m => m ≠ target)).length > 0
      then s.menus.filter (fun m => m ≠ target) else DEFAULT_MENUS) ≠ [] := by
    split_ifs with h
    · intro hc
      rw [hc] at h
      simp at h
    · decide
  have hmenus : (step s (.deleteMenu target)).menus =
      if (s.menus.filter (fun m => m ≠ target)).length > 0
      then s.menus.filter (fun m => m ≠ target) else DEFAULT_MENUS := by
    simp only [step, handleDeleteMenu]
    rw [runMenusEffect_menus]
    split_ifs <;> rfl
  refine ⟨hmenus, by rw [hmenus]; exact hne, ?_⟩
  rw [hmenus]
  simp only [step, handleDeleteMenu]
  by_cases hmem : s.menu ∈ (if (s.menus.filter (fun m => m ≠ target)).length > 0
      then s.menus.filter (fun m => m ≠ target) else DEFAULT_MENUS)
  · rw [if_pos hmem, if_neg (not_not_intro hmem)]
    exact runMenusEffect_menu_mem _ hmem
  · rw [if_neg hmem, if_pos hmem]
    exact runMenusEffect_menu_mem _ (headD_mem_of_ne_nil _ _ hne)

/-! ### Claim C4 -/

/-- The comparator order is transitive. -/
theorem recLE_trans (a b c : RecordItem) (h1 : recLE a b) (h2 : recLE b c) :
    recLE a c := by
  simp only [recLE] at *
  by_cases hab : a.date = b.date <;> by_cases hbc : b.date = c.date
  · rw [if_pos hab, decide_eq_true_eq] at h1
    rw [if_pos hbc, decide_eq_true_eq] at h2
    rw [if_pos (hab.trans hbc), decide_eq_true_eq]
    exact le_trans h2 h1
  · rw [if_pos hab] at h1
    rw [if_neg hbc, decide_eq_true_eq] at h2
    have hlt : c.date < a.date := hab ▸ h2
    rw [if_neg hlt.ne', decide_eq_true_eq]
    exact hlt
  · rw [if_neg hab, decide_eq_true_eq] at h1
    rw [if_pos hbc] at h2
    have hlt : c.date < a.date := hbc ▸ h1
    rw [if_neg hlt.ne', decide_eq_true_eq]
    exact hlt
  · rw [if_neg hab, decide_eq_true_eq] at h1
    rw [if_neg hbc, decide_eq_true_eq] at h2
    have hlt : c.date < a.date := lt_trans h2 h1
    rw [if_neg hlt.ne', decide_eq_true_eq]
    exact hlt

/-- The comparator order is total. -/
theorem recLE_total (a b : RecordItem) : recLE a b || recLE b a := by
  simp only [recLE]
  by_cases hab : a.date = b.date
  · rw [if_pos hab, if_pos hab.symm]
    rcases le_total a.createdAt b.createdAt with h | h <;> simp [h]
  · rw [if_neg hab, if_neg (Ne.symm hab)]
    rcases lt_or_gt_of_ne hab with h | h <;> simp [h, le_of_lt]

/-- The comparator, spelled out. -/
theorem recLE_iff (a b : RecordItem) :
    recLE a b = true ↔
      (b.date < a.date ∨ (a.date = b.date ∧ b.createdAt ≤ a.createdAt)) := by
  simp only [recLE]
  split_ifs with h
  · simp [h]
  · simp [h]

/-- Claim C4: `sortRecords` returns a new list that is a permutation of
the input (the input itself is untouched — the embedding is pure and the
source sorts a copy), ordered descending by date string (code-point
lexicographic) and, within equal dates, descending by creation
timestamp; the sort is stable: any pair already ordered by the
comparator keeps its relative order. -/
theorem c4_sort_spec (l : List RecordItem) :
    (sortRecords l).Perm l ∧
    (sortRecords l).Pairwise
      (fun a b => b.date < a.date ∨ (a.date = b.date ∧ b.createdAt ≤ a.createdAt)) ∧
    (∀ a b : RecordItem, recLE a b = true → List.Sublist [a, b] l →
      List.Sublist [a, b] (sortRecords l)) := by
  refine ⟨List.mergeSort_perm l recLE, ?_, ?_⟩
  · have h := List.sorted_mergeSort recLE_trans recLE_total l
    exact h.imp (fun hab => (recLE_iff _ _).mp hab)
  · intro a b hab hsub
    exact List.pair_sublist_mergeSort recLE_trans recLE_total hab hsub

/-- Witness for `c4_sort_spec`: two same-date records in
comparator order stay in order. -/
theorem c4_sort_spec_witness :
    List.Sublist [sampleRecordB, sampleRecord]
      (sortRecords [sampleRecordB, sampleRecord]) :=
  (c4_sort_spec [sampleRecordB, sampleRecord]).2.2 sampleRecordB sampleRecord
    (by decide) (List.Sublist.refl _)

/-! ### Claims C5 and C9: the menu field during repair -/

/-- A repaired record whose raw `menu` field is not a string gets the
supplied default. -/
theorem repairRecord_menu_default (d : String) (now : ℚ) (i : String) (r : JVal)
    (h : menuFieldIsString r = false) : (repairRecord d now i r).menu = d := by
  simp only [repairRecord, menuFieldIsString] at *
  cases hv : r.getField "menu" with
  | none => rfl
  | some v =>
    cases v <;> simp only [hv] at h ⊢ <;> first | rfl | exact absurd h (by simp)

/-- A repaired record whose raw `menu` field is a string keeps it,
whatever the default. -/
theorem repairRecord_menu_string (d : String) (now : ℚ) (i : String) (r : JVal)
    (ms : String) (h : r.getField "menu" = some (.str ms)) :
    (repairRecord d now i r).menu = ms := by
  simp only [repairRecord, h]

/-- `importMenus` never returns the empty list: either the cleaned
imported menus are non-empty, or the default set is substituted. -/
theorem importMenus_ne_nil (data : JVal) : importMenus data ≠ [] := by
  simp only [importMenus]
  split_ifs with h
  · intro hc
    rw [hc] at h
    simp at h
  · decide

/-- Claim C5: during import normalization every raw record whose `menu`
field is missing or not a string is assigned the first menu of the newly
imported (already normalized, hence non-empty) menu set before the
non-empty-field filter runs — the record pipeline of `normalizeImport`
is exactly repair-with-that-default followed by the filter — whereas the
same repair during load from storage (`readRecords`) uses the empty
string as the default. -/
theorem c5_menu_default_on_import (data : JVal) (g : ℕ → String) (now : ℚ) :
    importMenus data ≠ [] ∧
    (normalizeImport data g now).2 =
      (repairList ((importMenus data).headD "") g now 0
        ((recordsRaw data).filter JVal.isObjectLike)).filter recordKeep ∧
    (∀ (r : JVal) (i : ℕ), menuFieldIsString r = false →
      (repairRecord ((importMenus data).headD "") now (g i) r).menu =
        (importMenus data).headD "") ∧
    (∀ (elems : List JVal), readRecords (some (.arr elems)) g now =
      (repairList "" g now 0 (elems.filter JVal.isObjectLike)).filter recordKeep) ∧
    (∀ (r : JVal) (i : ℕ), menuFieldIsString r = false →
      (repairRecord "" now (g i) r).menu = "") := by
  refine ⟨importMenus_ne_nil data, rfl, ?_, fun elems => rfl, ?_⟩
  · intro r i h
    exact repairRecord_menu_default _ now (g i) r h
  · intro r i h
    exact repairRecord_menu_default _ now (g i) r h

/-- Witness for `c5_menu_default_on_import` at a concrete payload and a
concrete raw record with no `menu` field. -/
theorem c5_menu_default_on_import_witness :
    (repairRecord ((importMenus (exportData DEFAULT_MENUS [])).headD "") 0
      (constGen 0) noMenuRecord).menu =
      (importMenus (exportData DEFAULT_MENUS [])).headD "" ∧
    (repairRecord "" 0 (constGen 0) noMenuRecord).menu = "" :=
  ⟨(c5_menu_default_on_import (exportData DEFAULT_MENUS []) constGen 0).2.2.1
      noMenuRecord 0 rfl,
   (c5_menu_default_on_import (exportData DEFAULT_MENUS []) constGen 0).2.2.2.2
      noMenuRecord 0 rfl⟩

/-- Claim C9: a raw record whose `menu` field is present as a string —
the empty string included — keeps that string through repair (it is not
reassigned to the first imported menu), and a record with an empty menu
cannot survive normalization: every record produced by `normalizeImport`
has a non-empty menu. -/
theorem c9_string_menu_kept :
    (∀ (d : String) (now : ℚ) (i : String) (r : JVal) (ms : String),
      r.getField "menu" = some (.str ms) → (repairRecord d now i r).menu = ms) ∧
    (∀ (data : JVal) (g : ℕ → String) (now : ℚ) (rec : RecordItem),
      rec ∈ (normalizeImport data g now).2 → rec.menu ≠ "") := by
  refine ⟨repairRecord_menu_string, ?_⟩
  intro data g now rec hmem
  have hk : recordKeep rec = true := List.of_mem_filter hmem
  simp only [recordKeep, Bool.and_eq_true, decide_eq_true_eq] at hk
  exact hk.1.1.2

/-- Witness for `c9_string_menu_kept`: a raw record whose `menu` field
is the empty string keeps it even though a non-empty default is
available. -/
theorem c9_string_menu_kept_witness :
    (repairRecord "ベンチプレス" 0 "id" emptyMenuRecord).menu = "" :=
  c9_string_menu_kept.1 "ベンチプレス" 0 "id" emptyMenuRecord "" rfl

/-! ### Claim C3 -/

theorem encodeRecord_getField_id (r : RecordItem) :
    (encodeRecord r).getField "id" = some (.str r.id) := rfl

theorem encodeRecord_getField_date (r : RecordItem) :
    (encodeRecord r).getField "date" = some (.str r.date) := rfl

theorem encodeRecord_getField_menu (r : RecordItem) :
    (encodeRecord r).getField "menu" = some (.str r.menu) := rfl

theorem encodeRecord_getField_weight (r : RecordItem) :
    (encodeRecord r).getField "weight" = some (encodeNum r.weight) := rfl

theorem encodeRecord_getField_reps (r : RecordItem) :
    (encodeRecord r).getField "reps" = some (encodeNum r.reps) := rfl

theorem encodeRecord_getField_createdAt (r : RecordItem) :
    (encodeRecord r).getField "createdAt" = some (.num r.createdAt) := rfl

/-- Repair is the identity on the serialization of a record that
satisfies the invariants, whatever the menu default and the id supply. -/
theorem repairRecord_encodeRecord (d : String) (now : ℚ) (i : String)
    (r : RecordItem) (h : validRecordItem r) :
    repairRecord d now i (encodeRecord r) = r := by
  obtain ⟨rid, rdate, rmenu, rweight, rreps, rcreated⟩ := r
  obtain ⟨hd, hm, hwf, hwp, hrf, hrp⟩ := h
  obtain ⟨qw, hqw⟩ : ∃ q, rweight = JsNum.fin q := by
    cases rweight <;> simp_all [JsNum.isFinite]
  obtain ⟨qr, hqr⟩ : ∃ q, rreps = JsNum.fin q := by
    cases rreps <;> simp_all [JsNum.isFinite]
  subst hqw
  subst hqr
  simp [repairRecord, encodeRecord_getField_id, encodeRecord_getField_date,
    encodeRecord_getField_menu, encodeRecord_getField_weight,
    encodeRecord_getField_reps, encodeRecord_getField_createdAt,
    optToNum, encodeNum, JVal.toNum, JsNum.isFinite]

/-- Repair maps the serialization of a list of invariant-satisfying
records back to the list itself. -/
theorem repairList_encode (d : String) (g : ℕ → String) (now : ℚ) :
    ∀ (l : List RecordItem), (∀ x ∈ l, validRecordItem x) → ∀ i : ℕ,
      repairList d g now i (l.map encodeRecord) = l
  | [], _, _ => rfl
  | x :: xs, h, i => by
    simp only [List.map_cons, repairList]
    rw [repairRecord_encodeRecord d now (g i) x (h x (List.mem_cons_self x xs)),
        repairList_encode d g now xs (fun y hy => h y (List.mem_cons_of_mem x hy))
          (i + 1)]

theorem filter_isObjectLike_map_encode (l : List RecordItem) :
    (l.map encodeRecord).filter JVal.isObjectLike = l.map encodeRecord := by
  rw [List.filter_eq_self]
  intro a ha
  obtain ⟨r, _, rfl⟩ := List.mem_map.mp ha
  rfl

theorem filter_recordKeep_of_valid (l : List RecordItem)
    (h : ∀ x ∈ l, validRecordItem x) : l.filter recordKeep = l := by
  rw [List.filter_eq_self]
  intro a ha
  obtain ⟨hd, hm, _, hwp, _, hrp⟩ := h a ha
  simp [recordKeep, hd, hm, hwp, hrp]

/-- Importing the export of a clean menu list returns it unchanged. -/
theorem importMenus_exportData (m : List String) (r : List RecordItem)
    (hm : m ≠ []) (hmm : ∀ x ∈ m, jsTrim x = x ∧ x ≠ "") :
    importMenus (exportData m r) = m := by
  have hfield : (exportData m r).getField "menus" = some (encodeMenus m) := rfl
  simp only [importMenus, hfield, encodeMenus]
  have h1 : (m.map JVal.str).filterMap JVal.asString = m := by
    rw [List.filterMap_map]
    exact List.filterMap_some m
  rw [h1]
  have h2 : m.map jsTrim = m := by
    conv_rhs => rw [← List.map_id m]
    exact List.map_congr_left (fun a ha => (hmm a ha).1)
  rw [h2]
  have h3 : m.filter (fun x => x ≠ "") = m := by
    rw [List.filter_eq_self]
    intro a ha
    simpa using (hmm a ha).2
  rw [h3, if_pos (List.length_pos.mpr hm)]

/-- Importing the export of a list of invariant-satisfying records
returns it unchanged (ids are strings, so the generated-id supply is
never consulted). -/
theorem importRecords_exportData (m : List String) (rs : List RecordItem)
    (g : ℕ → String) (now : ℚ) (hr : ∀ x ∈ rs, validRecordItem x) :
    importRecords (exportData m rs) g now = rs := by
  have hfield : recordsRaw (exportData m rs) = rs.map encodeRecord := rfl
  simp only [importRecords, hfield, filter_isObjectLike_map_encode]
  rw [repairList_encode _ g now rs hr 0, filter_recordKeep_of_valid rs hr]

/-- Claim C3: for every non-empty menu list of trimmed non-empty names
and every record list satisfying the record invariants, importing the
export of that data restores both collections exactly (even as lists,
since no id needs to be regenerated). -/
theorem c3_roundtrip (s : AppState) (m : List String) (rs : List RecordItem)
    (g : ℕ → String) (now : ℚ)
    (hm : m ≠ []) (hmm : ∀ x ∈ m, jsTrim x = x ∧ x ≠ "")
    (hr : ∀ x ∈ rs, validRecordItem x) :
    (step s (.importFile (some (exportData m rs)) g now)).menus = m ∧
    (step s (.importFile (some (exportData m rs)) g now)).records = rs := by
  have h := handleImport_success s (exportData m rs) g now rfl rfl
  simp only [step]
  exact ⟨h.1.trans (importMenus_exportData m rs hm hmm),
         h.2.trans (importRecords_exportData m rs g now hr)⟩

/-- Witness for `c3_roundtrip` at the default menus and one concrete
record. -/
theorem c3_roundtrip_witness :
    (step baseState
      (.importFile (some (exportData DEFAULT_MENUS [sampleRecord])) constGen 0)).menus =
      DEFAULT_MENUS ∧
    (step baseState
      (.importFile (some (exportData DEFAULT_MENUS [sampleRecord])) constGen 0)).records =
      [sampleRecord] :=
  c3_roundtrip baseState DEFAULT_MENUS [sampleRecord] constGen 0 (by decide)
    (by decide) (by decide)

/-! ### Claim C7 -/

/-- After the menus effect on a non-empty menu list, the stored cell
mirrors the (non-empty) list. -/
theorem effectPersisted (s' : AppState) (hne : s'.menus ≠ []) :
    (runMenusEffect s').menus ≠ [] ∧
    (runMenusEffect s').storedMenus =
      some (encodeMenus (runMenusEffect s').menus) := by
  rw [runMenusEffect_menus, runMenusEffect_storedMenus_pos s' hne]
  exact ⟨hne, rfl⟩

/-- As `effectPersisted`, through a following records effect. -/
theorem effectPersisted2 (s' : AppState) (hne : s'.menus ≠ []) :
    (runRecordsEffect (runMenusEffect s')).menus ≠ [] ∧
    (runRecordsEffect (runMenusEffect s')).storedMenus =
      some (encodeMenus (runRecordsEffect (runMenusEffect s')).menus) := by
  rw [runRecordsEffect_menus, runRecordsEffect_storedMenus, runMenusEffect_menus,
      runMenusEffect_storedMenus_pos s' hne]
  exact ⟨hne, rfl⟩

/-- Menu deletion always ends with a non-empty, freshly persisted menu
list. -/
theorem handleDeleteMenu_persisted (s : AppState) (t : String) :
    (handleDeleteMenu s t).menus ≠ [] ∧
    (handleDeleteMenu s t).storedMenus =
      some (encodeMenus (handleDeleteMenu s t).menus) := by
  simp only [handleDeleteMenu]
  apply effectPersisted
  split_ifs <;> first
    | exact List.ne_nil_of_length_pos (by assumption)
    | simp [DEFAULT_MENUS]

/-- Claim C7: in every state and for every event, the persisted menus
cell is either left alone or overwritten with the serialization of the
new, non-empty in-memory menu list; and whenever the event changes the
in-memory menu list, the new (necessarily non-empty) list is persisted.
An empty array is never written to the menus cell. -/
theorem c7_menus_persist (s : AppState) (e : Event) :
    ((step s e).menus ≠ s.menus →
      (step s e).menus ≠ [] ∧
      (step s e).storedMenus = some (encodeMenus (step s e).menus)) ∧
    ((step s e).storedMenus = s.storedMenus ∨
      ((step s e).menus ≠ [] ∧
       (step s e).storedMenus = some (encodeMenus (step s e).menus))) := by
  cases e with
  | setMenuInput v => exact ⟨fun hc => absurd rfl hc, Or.inl rfl⟩
  | setDate v => exact ⟨fun hc => absurd rfl hc, Or.inl rfl⟩
  | setMenuSel v => exact ⟨fun hc => absurd rfl hc, Or.inl rfl⟩
  | setWeight v => exact ⟨fun hc => absurd rfl hc, Or.inl rfl⟩
  | setReps v => exact ⟨fun hc => absurd rfl hc, Or.inl rfl⟩
  | addMenu =>
    simp only [step, handleAddMenu]
    split_ifs with h1 h2
    · exact ⟨fun hc => absurd rfl hc, Or.inl rfl⟩
    · exact ⟨fun hc => absurd rfl hc, Or.inl rfl⟩
    · exact ⟨fun _ => effectPersisted _ (by simp), Or.inr (effectPersisted _ (by simp))⟩
  | deleteMenu t =>
    simp only [step]
    exact ⟨fun _ => handleDeleteMenu_persisted s t,
           Or.inr (handleDeleteMenu_persisted s t)⟩
  | addRecord i n =>
    simp only [step, handleAddRecord]
    split_ifs with h1
    · exact ⟨fun hc => absurd rfl hc, Or.inl rfl⟩
    · exact ⟨fun hc => absurd rfl hc, Or.inl rfl⟩
  | deleteRecord i => exact ⟨fun hc => absurd rfl hc, Or.inl rfl⟩
  | importFile p g n =>
    cases p with
    | none => exact ⟨fun hc => absurd rfl hc, Or.inl rfl⟩
    | some v =>
      simp only [step, handleImport]
      split_ifs with h
      · exact ⟨fun hc => absurd rfl hc, Or.inl rfl⟩
      · exact ⟨fun _ => effectPersisted2 _ (importMenus_ne_nil v),
               Or.inr (effectPersisted2 _ (importMenus_ne_nil v))⟩

/-- Witness for `c7_menus_persist`: deleting one of the default menus
changes the list, and the changed non-empty list is persisted. -/
theorem c7_menus_persist_witness :
    (step baseState (.deleteMenu "スクワット")).menus ≠ [] ∧
    (step baseState (.deleteMenu "スクワット")).storedMenus =
      some (encodeMenus (step baseState (.deleteMenu "スクワット")).menus) :=
  (c7_menus_persist baseState (.deleteMenu "スクワット")).1 (by decide)

/-! ### Claim C10 -/

/-- Claim C10: unlike the menus cell, the records cell is mirrored
unconditionally: every event that changes the record list (and every
record deletion or successful import, whether or not it changes the
list) rewrites the persisted records cell with the serialization of the
new in-memory list — the empty list included, so deleting the last
record or importing an empty record set overwrites storage with an
empty array. -/
theorem c10_records_mirror (s : AppState) (e : Event) :
    ((step s e).records ≠ s.records →
      (step s e).storedRecords = some (encodeRecords (step s e).records)) ∧
    (∀ i, (step s (.deleteRecord i)).storedRecords =
      some (encodeRecords (step s (.deleteRecord i)).records)) ∧
    (∀ (v : JVal) (g : ℕ → String) (n : ℚ),
      v.truthy = true → v.typeofObject = true →
      (step s (.importFile (some v) g n)).storedRecords =
        some (encodeRecords (step s (.importFile (some v) g n)).records)) := by
  refine ⟨?_, ?_, ?_⟩
  · cases e with
    | setMenuInput v => exact fun hc => absurd rfl hc
    | setDate v => exact fun hc => absurd rfl hc
    | setMenuSel v => exact fun hc => absurd rfl hc
    | setWeight v => exact fun hc => absurd rfl hc
    | setReps v => exact fun hc => absurd rfl hc
    | addMenu =>
      intro hc
      simp only [step, handleAddMenu] at hc ⊢
      split_ifs at hc ⊢ with h1 h2
      · exact absurd rfl hc
      · exact absurd rfl hc
      · rw [runMenusEffect_records] at hc
        exact absurd rfl hc
    | deleteMenu t =>
      intro hc
      simp only [step, handleDeleteMenu] at hc
      rw [runMenusEffect_records] at hc
      split_ifs at hc <;> exact absurd rfl hc
    | addRecord i n =>
      intro hc
      simp only [step, handleAddRecord] at hc ⊢
      split_ifs at hc ⊢ with h1
      · exact absurd rfl hc
      · rw [runRecordsEffect_storedRecords, runRecordsEffect_records]
    | deleteRecord i =>
      intro hc
      simp only [step, handleDeleteRecord]
      rw [runRecordsEffect_storedRecords, runRecordsEffect_records]
    | importFile p g n =>
      cases p with
      | none => exact fun hc => absurd rfl hc
      | some v =>
        intro hc
        simp only [step, handleImport] at hc ⊢
        split_ifs at hc ⊢ with h1
        · exact absurd rfl hc
        · rw [runRecordsEffect_storedRecords, runRecordsEffect_records]
  · intro i
    simp only [step, handleDeleteRecord]
    rw [runRecordsEffect_storedRecords, runRecordsEffect_records]
  · intro v g n h1 h2
    simp only [step, handleImport]
    rw [if_neg (by simp [h1, h2])]
    rw [runRecordsEffect_storedRecords, runRecordsEffect_records]

/-- Witness for `c10_records_mirror`: deleting the only record rewrites
the records cell with the serialization of the now-empty list. -/
theorem c10_records_mirror_witness :
    (step oneRecState (.deleteRecord "a")).records = [] ∧
    (step oneRecState (.deleteRecord "a")).storedRecords =
      some (encodeRecords (step oneRecState (.deleteRecord "a")).records) :=
  ⟨by decide, (c10_records_mirror oneRecState (.deleteRecord "a")).1 (by decide)⟩

end Training
